import Mathlib

/-
Shallow embedding of the timetable-scheduler backend (Python sources under
backend/).  Pure fragments of the code are translated into executable Lean
definitions; database-backed state is made explicit (the slot store is a list
of rows, the coordinator's in-memory reservation index is an association
list, mirroring the Python dict).  Times are minutes since midnight (Nat);
Python datetime.time arithmetic wraps at 24h, modelled by mod 1440.
-/

namespace TTS

/-! ## Domain model and time grid (models.py, scheduler.py constants) -/

/-- RoomType enum from models.py. -/
inductive RoomType where
  | lecture
  | lab
  | computer_lab
  | conference
  deriving DecidableEq, Repr

/-- The string payload of each RoomType enum member (models.py). -/
def RoomType.value : RoomType → String
  | .lecture => "lecture"
  | .lab => "lab"
  | .computer_lab => "computer_lab"
  | .conference => "conference"

/-- Slots per day: (18 - 8) * 60 // 55 = 10 (TimetableScheduler init). -/
def numSlotsPerDay : Nat := (18 - 8) * 60 / 55

/-- Days per week (TimetableScheduler init). -/
def numDays : Nat := 5

/-- Slot duration in minutes (TimetableScheduler init). -/
def slotDuration : Nat := 55

/-- TimetableScheduler slot_to_time, as minutes since midnight:
8:00 plus 55 minutes per slot; datetime .time() wraps at midnight. -/
def slotToTimeMin (slot : Nat) : Nat := (8 * 60 + slot * slotDuration) % 1440

/-- TimetableScheduler add_minutes_to_time on a minutes-since-midnight value. -/
def addMinutesToTime (startTime minutes : Nat) : Nat := (startTime + minutes) % 1440

/-- GlobalScheduler time_to_slot: (time_minutes - 480) // 55 with Python floor
division (arguments can in principle be below 8:00, hence Int.fdiv). -/
def timeToSlot (timeMin : Nat) : Int := ((timeMin : Int) - 8 * 60).fdiv 55

/-- TimetableScheduler is_room_compatible: string comparison chain over the
enum values (equal types, lecture in conference, lab in computer_lab). -/
def isRoomCompatible (courseRoomType classroomRoomType : RoomType) : Bool :=
  let courseTypeStr := courseRoomType.value
  let classroomTypeStr := classroomRoomType.value
  if courseTypeStr == classroomTypeStr then true
  else if courseTypeStr == "lecture" && classroomTypeStr == "conference" then true
  else if courseTypeStr == "lab" && classroomTypeStr == "computer_lab" then true
  else false

/-- The room-type compatibility table exactly as written in section 3 of the
spec (used only to compare against the code's predicate). -/
def specCompatTable : RoomType → RoomType → Bool
  | .lecture, .lecture => true
  | .lecture, .conference => true
  | .lab, .lab => true
  | .lab, .computer_lab => true
  | .computer_lab, .computer_lab => true
  | .conference, .conference => true
  | _, _ => false

/-! ## Solver snapshot (TimetableScheduler.load_data) -/

/-- A course as loaded into the scheduler snapshot. -/
structure CourseData where
  id : Nat
  name : String
  durationMinutes : Nat
  sessionsPerWeek : Nat
  roomType : RoomType
  deriving DecidableEq, Repr

/-- A teacher as loaded into the scheduler snapshot; availability is the
parsed JSON matrix when present, daysOff the parsed list (default empty). -/
structure TeacherData where
  id : Nat
  name : String
  maxHoursPerDay : Nat
  availability : Option (List (List Bool))
  daysOff : List Nat
  deriving DecidableEq, Repr

/-- An assignment as loaded into the scheduler snapshot, with the embedded
section code and teacher name used by extract_solution. -/
structure AssignmentData where
  id : Nat
  courseId : Nat
  sectionId : Nat
  teacherId : Nat
  groupId : Option String
  sectionCode : String
  teacherName : String
  deriving DecidableEq, Repr

/-- A classroom as loaded into the scheduler snapshot. -/
structure ClassroomData where
  id : Nat
  roomId : String
  roomType : RoomType
  capacity : Nat
  deriving DecidableEq, Repr

/-- A parsed rule; rule_data is a JSON object, modelled as a string-keyed
association list of integers (the fields the builder reads are integers),
plus the forbidden pairs list for forbidden_time_pairs rules. -/
structure RuleData where
  id : Nat
  name : String
  ruleType : String
  ruleData : List (String × Nat)
  pairs : List (Option Nat × Option Nat × Option Nat)
  deriving DecidableEq, Repr

/-- The data loaded by load_data for one department and owner. -/
structure Snapshot where
  assignments : List AssignmentData
  teachers : List TeacherData
  courses : List CourseData
  classrooms : List ClassroomData
  rules : List RuleData
  deriving DecidableEq, Repr

/-- rule_data.get(key, default) on the association-list JSON object. -/
def ruleGetD (rd : List (String × Nat)) (key : String) (dflt : Nat) : Nat :=
  match rd.find? (fun p => p.1 == key) with
  | some p => p.2
  | none => dflt

/-- A decision-variable key (assignment_id, classroom_id, day, slot). -/
abbrev ScheduleKey := Nat × Nat × Nat × Nat

/-- The first course in the snapshot with the given id
(next(c for c in self.courses if c.id == course_id)). -/
def findCourse (sn : Snapshot) (courseId : Nat) : Option CourseData :=
  sn.courses.find? (fun c => c.id == courseId)

/-- The keys of the decision variables created by create_decision_variables:
one variable per (assignment, classroom) pair whose course room type is
compatible with the classroom, per day, per slot. -/
def scheduleKeys (sn : Snapshot) : List ScheduleKey :=
  sn.assignments.flatMap fun a =>
    sn.classrooms.flatMap fun r =>
      match findCourse sn a.courseId with
      | some course =>
        if isRoomCompatible course.roomType r.roomType then
          (List.range numDays).flatMap fun day =>
            (List.range numSlotsPerDay).map fun slot => (a.id, r.id, day, slot)
        else []
      | none => []

/-- A CP-SAT valuation of the schedule decision variables. -/
abbrev Valuation := ScheduleKey → Bool

/-- Whether a key is present in the schedule_vars dictionary. -/
def keyExists (sn : Snapshot) (k : ScheduleKey) : Bool :=
  (scheduleKeys sn).contains k

/-- The value a valuation gives to a variable that exists; keys outside the
dictionary never appear in constraints. -/
def varVal (sn : Snapshot) (v : Valuation) (k : ScheduleKey) : Bool :=
  keyExists sn k && v k

/-! ## Hard constraints (TimetableScheduler.add_hard_constraints) -/

/-- The schedule_vars entries whose key has a given assignment id
(constraint 1 collects vars with key[0] == assignment id). -/
def assignmentKeys (sn : Snapshot) (aId : Nat) : List ScheduleKey :=
  (scheduleKeys sn).filter (fun k => k.1 == aId)

/-- Number of variables in a key list that a valuation sets to 1. -/
def countScheduled (v : Valuation) (ks : List ScheduleKey) : Nat :=
  ks.countP (fun k => v k)

/-- Constraint 1: each assignment is scheduled exactly sessions_per_week
times - but only when at least one variable exists for it (the source guards
the constraint with "if assignment_vars:").  A snapshot whose assignment has
no course record aborts generation in the source (StopIteration); such
snapshots are outside every claim and get no constraint here. -/
def sessionCountOk (sn : Snapshot) (v : Valuation) : Bool :=
  sn.assignments.all fun a =>
    match findCourse sn a.courseId with
    | some course =>
      let assignmentVars := assignmentKeys sn a.id
      if assignmentVars.isEmpty then true
      else countScheduled v assignmentVars == course.sessionsPerWeek
    | none => true

/-- The existing variables that would place a teacher at (day, slot): over
the teacher's assignments and all classrooms, keys present in schedule_vars. -/
def teacherCellKeys (sn : Snapshot) (tId day slot : Nat) : List ScheduleKey :=
  sn.assignments.flatMap fun a =>
    if a.teacherId == tId then
      sn.classrooms.filterMap fun r =>
        let k := (a.id, r.id, day, slot)
        if keyExists sn k then some k else none
    else []

/-- Constraint 2: no teacher in two places at once. -/
def teacherOverlapOk (sn : Snapshot) (v : Valuation) : Bool :=
  sn.teachers.all fun t =>
    (List.range numDays).all fun day =>
      (List.range numSlotsPerDay).all fun slot =>
        decide (countScheduled v (teacherCellKeys sn t.id day slot) ≤ 1)

/-- The existing variables that would place any assignment in a classroom at
(day, slot). -/
def roomCellKeys (sn : Snapshot) (rId day slot : Nat) : List ScheduleKey :=
  sn.assignments.filterMap fun a =>
    let k := (a.id, rId, day, slot)
    if keyExists sn k then some k else none

/-- Constraint 3: no classroom hosts two classes at once. -/
def roomOverlapOk (sn : Snapshot) (v : Valuation) : Bool :=
  sn.classrooms.all fun r =>
    (List.range numDays).all fun day =>
      (List.range numSlotsPerDay).all fun slot =>
        decide (countScheduled v (roomCellKeys sn r.id day slot) ≤ 1)

/-- All existing variables of one teacher on one day at one slot are zero
(the body of the availability fixings). -/
def teacherSlotAllZero (sn : Snapshot) (v : Valuation) (tId day slot : Nat) : Bool :=
  sn.assignments.all fun a =>
    !(a.teacherId == tId) ||
      sn.classrooms.all fun r =>
        let k := (a.id, r.id, day, slot)
        !(keyExists sn k) || !(v k)

/-- Constraint 4: teacher availability.  The whole block is guarded by
"if teacher.availability:" in the source - a teacher without an availability
matrix gets no availability or days_off constraint at all.  With a matrix:
days in days_off zero out the whole day, other days are checked slot by slot
against the matrix row. -/
def availabilityOk (sn : Snapshot) (v : Valuation) : Bool :=
  sn.teachers.all fun t =>
    match t.availability with
    | none => true
    | some availability =>
      (List.range numDays).all fun day =>
        if t.daysOff.contains day then
          (List.range numSlotsPerDay).all fun slot =>
            teacherSlotAllZero sn v t.id day slot
        else
          if day < availability.length then
            let dayAvailability := availability.getD day []
            (List.range (min dayAvailability.length numSlotsPerDay)).all fun slot =>
              if !(dayAvailability.getD slot true) then
                teacherSlotAllZero sn v t.id day slot
              else true
          else true

/-- The existing variables of one teacher across one whole day. -/
def teacherDayKeys (sn : Snapshot) (tId day : Nat) : List ScheduleKey :=
  sn.assignments.flatMap fun a =>
    if a.teacherId == tId then
      sn.classrooms.flatMap fun r =>
        (List.range numSlotsPerDay).filterMap fun slot =>
          let k := (a.id, r.id, day, slot)
          if keyExists sn k then some k else none
    else []

/-- Constraint 5: at most max_hours_per_day * 60 // 55 slots per teacher
per day. -/
def maxHoursOk (sn : Snapshot) (v : Valuation) : Bool :=
  sn.teachers.all fun t =>
    let maxSlots := t.maxHoursPerDay * 60 / slotDuration
    (List.range numDays).all fun day =>
      decide (countScheduled v (teacherDayKeys sn t.id day) ≤ maxSlots)

/-- The distinct group ids appearing on assignments, in first-seen order. -/
def groupIdList (sn : Snapshot) : List String :=
  (sn.assignments.filterMap (fun a => a.groupId)).dedup

/-- The assignments carrying a given group id. -/
def groupMembers (sn : Snapshot) (g : String) : List AssignmentData :=
  sn.assignments.filter (fun a => a.groupId == some g)

/-- The existing variables of the group members at (day, slot), in member
then classroom order (the group_vars list of the source). -/
def groupCellKeys (sn : Snapshot) (members : List AssignmentData)
    (day slot : Nat) : List ScheduleKey :=
  members.flatMap fun a =>
    sn.classrooms.filterMap fun r =>
      let k := (a.id, r.id, day, slot)
      if keyExists sn k then some k else none

/-- Consecutive equality chain over a variable list
(Add(group_vars[i] == group_vars[i+1]) for each i). -/
def chainEq (v : Valuation) : List ScheduleKey → Bool
  | [] => true
  | [_] => true
  | k1 :: k2 :: rest => (v k1 == v k2) && chainEq v (k2 :: rest)

/-- Constraint 6: assignments sharing a group id get pairwise-chained equal
variables cell by cell (only for groups of more than one assignment and
cells with more than one variable). -/
def groupOk (sn : Snapshot) (v : Valuation) : Bool :=
  (groupIdList sn).all fun g =>
    let members := groupMembers sn g
    if members.length > 1 then
      (List.range numDays).all fun day =>
        (List.range numSlotsPerDay).all fun slot =>
          let groupVars := groupCellKeys sn members day slot
          if groupVars.length > 1 then chainEq v groupVars else true
    else true

/-- Conjunction of the six blocks of add_hard_constraints. -/
def hardConstraintsOk (sn : Snapshot) (v : Valuation) : Bool :=
  sessionCountOk sn v && teacherOverlapOk sn v && roomOverlapOk sn v &&
    availabilityOk sn v && maxHoursOk sn v && groupOk sn v

/-- The forbidden_time_pairs rules, dispatched from add_soft_constraints but
emitted as hard fixings: pairs whose assignment_id is truthy (present and
nonzero) and whose day and slot are present zero the named variables. -/
def forbiddenPairsOk (sn : Snapshot) (v : Valuation) : Bool :=
  sn.rules.all fun rule =>
    if rule.ruleType == "forbidden_time_pairs" then
      rule.pairs.all fun pair =>
        match pair with
        | (some aId, some day, some slot) =>
          if aId != 0 then
            sn.classrooms.all fun r =>
              let k := (aId, r.id, day, slot)
              !(keyExists sn k) || !(v k)
          else true
        | _ => true
    else true

/-- Every constraint the built model imposes on the schedule variables. -/
def feasibleModel (sn : Snapshot) (v : Valuation) : Bool :=
  hardConstraintsOk sn v && forbiddenPairsOk sn v

/-! ## Objective (TimetableScheduler.add_soft_constraints) -/

/-- The (teacher, day, slot) triples for which add_soft_constraints creates a
gap indicator variable: the variable lists at slot, slot+2 and slot+1 are all
nonempty.  The source never constrains these indicators to the busy pattern -
each one enters the objective as a free boolean times the weight 10. -/
def gapTermIndices (sn : Snapshot) : List (Nat × Nat × Nat) :=
  sn.teachers.flatMap fun t =>
    (List.range numDays).flatMap fun day =>
      (List.range (numSlotsPerDay - 2)).filterMap fun slot =>
        if !(teacherCellKeys sn t.id day slot).isEmpty &&
            !(teacherCellKeys sn t.id day (slot + 2)).isEmpty &&
            !(teacherCellKeys sn t.id day (slot + 1)).isEmpty then
          some (t.id, day, slot)
        else none

/-- A valuation of the free gap indicator variables. -/
abbrev GapValuation := Nat × Nat × Nat → Bool

/-- Soft term 2: weight 5 on the first and last slot of each day, for every
existing variable set to 1. -/
def timePreferencePenalty (sn : Snapshot) (v : Valuation) : Nat :=
  (sn.assignments.map fun a =>
    (sn.classrooms.map fun r =>
      ((List.range numDays).map fun day =>
        (([0, numSlotsPerDay - 1] : List Nat).map fun slot =>
          if varVal sn v (a.id, r.id, day, slot) then 5 else 0).sum).sum).sum).sum

/-- The penalty contributed by one lunch_window rule: its weight on every
existing variable set to 1 in the inclusive slot window
range(start_slot, end_slot + 1). -/
def lunchWindowPenalty (sn : Snapshot) (rd : List (String × Nat))
    (v : Valuation) : Nat :=
  let lunchStart := ruleGetD rd "start_slot" 5
  let lunchEnd := ruleGetD rd "end_slot" 6
  let penalty := ruleGetD rd "penalty" 20
  (sn.assignments.map fun a =>
    (sn.classrooms.map fun r =>
      ((List.range numDays).map fun day =>
        ((List.range' lunchStart (lunchEnd + 1 - lunchStart)).map fun slot =>
          if varVal sn v (a.id, r.id, day, slot) then penalty else 0).sum).sum).sum).sum

/-- The rule-driven objective terms: lunch_window rules contribute their
penalty, gap_preference is an explicit pass in the source, and
forbidden_time_pairs adds hard fixings instead of objective terms. -/
def rulesPenalty (sn : Snapshot) (v : Valuation) : Nat :=
  (sn.rules.map fun rule =>
    if rule.ruleType == "lunch_window" then lunchWindowPenalty sn rule.ruleData v
    else 0).sum

/-- The minimized objective, as the sum the source hands to Minimize: ten per
gap indicator set to 1, plus the time preference and rule penalties. -/
def objectiveValue (sn : Snapshot) (v : Valuation) (gv : GapValuation) : Nat :=
  10 * (gapTermIndices sn).countP gv + timePreferencePenalty sn v + rulesPenalty sn v

/-- A teacher is busy at (day, slot): some existing variable of the teacher
at that cell is 1.  Used to state the gap count of a schedule in the words of
the spec's O3 clause. -/
def teacherBusy (sn : Snapshot) (v : Valuation) (tId day slot : Nat) : Bool :=
  !(countScheduled v (teacherCellKeys sn tId day slot) == 0)

/-- Gap count of a schedule, written from the spec's O3 clause: teacher busy
at s and s+2 but idle at s+1, over s ≤ S-3 (used only to compare schedules
against the code's objective). -/
def specGapCount (sn : Snapshot) (v : Valuation) : Nat :=
  (sn.teachers.map fun t =>
    ((List.range numDays).map fun day =>
      ((List.range (numSlotsPerDay - 2)).countP fun slot =>
        teacherBusy sn v t.id day slot && teacherBusy sn v t.id day (slot + 2) &&
          !(teacherBusy sn v t.id day (slot + 1)))).sum).sum

/-! ## Solution materialization (TimetableScheduler.extract_solution) -/

/-- The dictionary extract_solution builds for each scheduled variable. -/
structure ExtractedSlot where
  assignmentId : Nat
  classroomId : Nat
  dayOfWeek : Nat
  startTime : Nat
  endTime : Nat
  courseName : String
  sectionCode : String
  teacherName : String
  roomId : String
  deriving DecidableEq, Repr

/-- extract_solution: for every schedule variable assigned 1, look up the
assignment, classroom and course and emit the slot record with
start_time = slot_to_time(slot) and end_time = start_time + duration. -/
def extractSolution (sn : Snapshot) (v : Valuation) : List ExtractedSlot :=
  (scheduleKeys sn).filterMap fun k =>
    if v k then
      match sn.assignments.find? (fun a => a.id == k.1),
          sn.classrooms.find? (fun c => c.id == k.2.1) with
      | some assignment, some classroom =>
        match findCourse sn assignment.courseId with
        | some course =>
          let startTime := slotToTimeMin k.2.2.2
          let endTime := addMinutesToTime startTime course.durationMinutes
          some { assignmentId := k.1, classroomId := k.2.1, dayOfWeek := k.2.2.1,
                 startTime := startTime, endTime := endTime,
                 courseName := course.name, sectionCode := assignment.sectionCode,
                 teacherName := assignment.teacherName, roomId := classroom.roomId }
        | none => none
      | _, _ => none
    else none

/-! ## Global coordinator (global_scheduler.py) -/

/-- A ScheduledSlot row of storage (models.py); start/end times are minutes
since midnight. -/
structure SlotRow where
  id : Nat
  deptTimetableId : Nat
  assignmentId : Nat
  classroomId : Nat
  dayOfWeek : Nat
  startTime : Nat
  endTime : Nat
  department : String
  isGlobalSlot : Bool
  deriving DecidableEq, Repr

/-- A reservation-index key (classroom_id, day_of_week, time_to_slot). -/
abbrev Cell := Nat × Nat × Int

/-- The index key of a slot row, as built throughout global_scheduler.py. -/
def cellOf (r : SlotRow) : Cell := (r.classroomId, r.dayOfWeek, timeToSlot r.startTime)

/-- The in-memory index G, a Python dict modelled as an association list in
insertion order. -/
abbrev GMap := List (Cell × String)

/-- Dict membership plus read: global_slots.get(key). -/
def gLookup (g : GMap) (c : Cell) : Option String :=
  (g.find? (fun e => e.1 == c)).map (fun e => e.2)

/-- Dict deletion: del global_slots[key]. -/
def gErase (g : GMap) (c : Cell) : GMap := g.filter (fun e => !(e.1 == c))

/-- Dict assignment global_slots[key] = dept: update in place when the key is
present, append otherwise. -/
def gInsert (g : GMap) (c : Cell) (d : String) : GMap :=
  if g.any (fun e => e.1 == c) then g.map (fun e => if e.1 == c then (c, d) else e)
  else g ++ [(c, d)]

/-- The entries of the index at one key (a dict has at most one). -/
def gEntries (g : GMap) (c : Cell) : GMap := g.filter (fun e => e.1 == c)

/-- The coordinator state the reserve/release claims range over: the
ScheduledSlot store plus the in-memory index. -/
structure CoordState where
  storage : List SlotRow
  g : GMap
  deriving DecidableEq, Repr

/-- The row filter of GlobalScheduler.reserve_global_slots: rows of the named
timetable whose id is in slot_ids. -/
def reserveTargeted (ttId : Nat) (ids : List Nat) (r : SlotRow) : Bool :=
  r.deptTimetableId == ttId && ids.contains r.id

/-- The per-row effect of the reserve UPDATE statement. -/
def reserveToggle (ttId : Nat) (ids : List Nat) (r : SlotRow) : SlotRow :=
  if reserveTargeted ttId ids r then { r with isGlobalSlot := true } else r

/-- One step of the reserve loop over the re-queried reserved slots. -/
def reserveStep (department : String) (g : GMap) (r : SlotRow) : GMap :=
  gInsert g (cellOf r) department

/-- GlobalScheduler.reserve_global_slots: set is_global_slot on the targeted
rows, then map each reserved row's cell to the calling department in G, and
report success. -/
def reserveGlobalSlots (st : CoordState) (department : String) (ttId : Nat)
    (ids : List Nat) : CoordState × Bool :=
  let storage := st.storage.map (reserveToggle ttId ids)
  let reservedSlots := storage.filter fun r =>
    reserveTargeted ttId ids r && r.isGlobalSlot
  let g := reservedSlots.foldl (reserveStep department) st.g
  ({ storage := storage, g := g }, true)

/-- The row filter of GlobalScheduler.release_global_slots. -/
def releaseTargeted (ttId : Nat) (r : SlotRow) : Bool :=
  r.deptTimetableId == ttId && r.isGlobalSlot

/-- The per-row effect of the release UPDATE statement. -/
def releaseClear (ttId : Nat) (r : SlotRow) : SlotRow :=
  if releaseTargeted ttId r then { r with isGlobalSlot := false } else r

/-- One step of the release loop: drop the cell from G only when it still
maps to the calling department. -/
def releaseStep (department : String) (g : GMap) (r : SlotRow) : GMap :=
  if gLookup g (cellOf r) == some department then gErase g (cellOf r) else g

/-- GlobalScheduler.release_global_slots: clear is_global_slot on all global
rows of the timetable, and drop each of their cells from G only when the
entry still maps to the calling department. -/
def releaseGlobalSlots (st : CoordState) (department : String) (ttId : Nat) :
    CoordState × Bool :=
  let slotsToRelease := st.storage.filter (releaseTargeted ttId)
  let storage := st.storage.map (releaseClear ttId)
  let g := slotsToRelease.foldl (releaseStep department) st.g
  ({ storage := storage, g := g }, true)

/-- The cells of the is_global_slot rows in storage (db_slot_keys). -/
def dbSlotKeys (st : CoordState) : List Cell :=
  (st.storage.filter (fun r => r.isGlobalSlot)).map cellOf

/-- The cells held by the in-memory index (memory_slot_keys). -/
def memorySlotKeys (st : CoordState) : List Cell :=
  st.g.map (fun e => e.1)

/-- GlobalScheduler.validate_global_consistency: ok iff no orphaned cells in
either direction between G and the is_global_slot rows, and no cell is
carried by more than one global row. -/
def validateGlobalConsistency (st : CoordState) : Bool :=
  ((memorySlotKeys st).filter (fun c => !((dbSlotKeys st).contains c))).isEmpty &&
    ((dbSlotKeys st).filter (fun c => !((memorySlotKeys st).contains c))).isEmpty &&
    ((dbSlotKeys st).filter (fun c => decide ((dbSlotKeys st).count c > 1))).isEmpty

/-- One reserve or release call with its arguments. -/
inductive CoordOp where
  | reserve (department : String) (ttId : Nat) (ids : List Nat)
  | release (department : String) (ttId : Nat)
  deriving DecidableEq, Repr

/-- Run one coordinator mutation. -/
def applyOp (st : CoordState) : CoordOp → CoordState
  | .reserve d t ids => (reserveGlobalSlots st d t ids).1
  | .release d t => (releaseGlobalSlots st d t).1

/-- Run a finite sequence of coordinator mutations. -/
def applyOps (st : CoordState) (ops : List CoordOp) : CoordState :=
  ops.foldl applyOp st

/-- The index storage induces: one entry per is_global_slot row, keyed by its
cell and mapping to its department (what load_global_state builds from an
empty coordinator). -/
def gSpec (storage : List SlotRow) : GMap :=
  (storage.filter (fun r => r.isGlobalSlot)).map (fun r => (cellOf r, r.department))

/-- The department argument of a coordinator call. -/
def CoordOp.callerDept : CoordOp → String
  | .reserve d _ _ => d
  | .release d _ => d

/-- The timetable argument of a coordinator call. -/
def CoordOp.callerTt : CoordOp → Nat
  | .reserve _ t _ => t
  | .release _ t => t

/-- An operation is department-consistent with a store when its department
argument is the department stored on every row of the timetable it names. -/
def deptConsistent (storage : List SlotRow) (op : CoordOp) : Bool :=
  storage.all fun r => !(r.deptTimetableId == op.callerTt) || r.department == op.callerDept

/-- The in-memory index agrees with the index storage induces, cell by
cell. -/
def Synced (st : CoordState) : Prop :=
  ∀ c, gEntries st.g c = gEntries (gSpec st.storage) c

/-- GlobalScheduler.attempt_reschedule: with the looked-up teacher (absent
assignment or teacher, or a teacher without an availability matrix, returns
failure), walk days not in days_off, then the available slots of the day's
availability row, and take the first cell of the slot's classroom absent from
G; the replacement row keeps everything but day and times, with
end_time = slot_to_time(time_slot + 1).  (The surrounding delete and insert
of rows is not needed by the claims; the returned row is.) -/
def attemptReschedule (g : GMap) (teacher : Option TeacherData) (slot : SlotRow) :
    Option SlotRow :=
  match teacher with
  | none => none
  | some t =>
    match t.availability with
    | none => none
    | some availability =>
      (List.range 5).findSome? fun day =>
        if t.daysOff.contains day then none
        else if day < availability.length then
          let dayAvailability := availability.getD day []
          (List.range dayAvailability.length).findSome? fun timeSlot =>
            if dayAvailability.getD timeSlot false then
              let key : Cell := (slot.classroomId, day, (timeSlot : Int))
              if gLookup g key == none then
                some { slot with
                       dayOfWeek := day
                       startTime := slotToTimeMin timeSlot
                       endTime := slotToTimeMin (timeSlot + 1) }
              else none
            else none
        else none

/-! ## Global state loading (GlobalScheduler.load_global_state) -/

/-- A DeptTimetable row, reduced to the fields load_global_state reads. -/
structure TimetableRow where
  id : Nat
  department : String
  status : String
  deriving DecidableEq, Repr

/-- A Classroom row, reduced to the fields load_global_state reads. -/
structure ClassroomRow where
  id : Nat
  roomId : String
  roomType : RoomType
  capacity : Nat
  department : String
  deriving DecidableEq, Repr

/-- The storage relations load_global_state queries. -/
structure Database where
  slots : List SlotRow
  timetables : List TimetableRow
  classrooms : List ClassroomRow
  deriving DecidableEq, Repr

/-- The shared-resource record built per Shared classroom. -/
structure SharedResource where
  roomId : String
  roomType : RoomType
  capacity : Nat
  departments : List String
  deriving DecidableEq, Repr

/-- The three in-memory structures of GlobalScheduler. -/
structure GlobalState where
  globalSlots : GMap
  departmentTimetables : List (String × List Nat)
  sharedResources : List (Nat × SharedResource)
  deriving DecidableEq, Repr

/-- department_timetables bookkeeping: create the department's list when
absent, then append the timetable. -/
def registryAppend (reg : List (String × List Nat)) (dept : String) (ttId : Nat) :
    List (String × List Nat) :=
  if reg.any (fun e => e.1 == dept) then
    reg.map (fun e => if e.1 == dept then (e.1, e.2 ++ [ttId]) else e)
  else reg ++ [(dept, [ttId])]

/-- shared_resources dict assignment. -/
def resourceInsert (res : List (Nat × SharedResource)) (cid : Nat)
    (info : SharedResource) : List (Nat × SharedResource) :=
  if res.any (fun e => e.1 == cid) then
    res.map (fun e => if e.1 == cid then (cid, info) else e)
  else res ++ [(cid, info)]

/-- GlobalScheduler.load_global_state: fold the global slot rows into the
existing index, the completed timetables into the existing registry, and the
Shared classrooms into the existing catalog.  Nothing is cleared first. -/
def loadGlobalState (db : Database) (st : GlobalState) : GlobalState :=
  let globalSlots := (db.slots.filter (fun s => s.isGlobalSlot)).foldl
    (fun g s => gInsert g (cellOf s) s.department) st.globalSlots
  let departmentTimetables :=
    (db.timetables.filter (fun t => t.status == "completed")).foldl
      (fun reg t => registryAppend reg t.department t.id) st.departmentTimetables
  let sharedResources := (db.classrooms.filter (fun c => c.department == "Shared")).foldl
    (fun res c => resourceInsert res c.id
      { roomId := c.roomId, roomType := c.roomType, capacity := c.capacity,
        departments := [] })
    st.sharedResources
  { globalSlots := globalSlots, departmentTimetables := departmentTimetables,
    sharedResources := sharedResources }

/-! ## Generation status flow (scheduler.py generate_timetable) -/

/-- The DeptTimetable fields generate_timetable touches. -/
structure TimetableStatus where
  status : String
  generationLog : Option String
  deriving DecidableEq, Repr

/-- The first step of generate_timetable: set status to generating.  The
current status is never read. -/
def updateStatusToGenerating (t : TimetableStatus) : TimetableStatus :=
  { t with status := "generating" }

/-- generate_timetable as a status machine: set generating, solve; on solver
success and save success the save path sets completed and the call succeeds;
on save failure the rollback leaves generating; on solver failure the
timetable is marked failed with the solver status in the log.  No branch
consults the incoming status. -/
def generateTimetable (t : TimetableStatus) (solverSuccess saveSuccess : Bool)
    (solverStatusName : String) : TimetableStatus × Bool :=
  let t1 := updateStatusToGenerating t
  if solverSuccess then
    if saveSuccess then ({ t1 with status := "completed" }, true)
    else (t1, false)
  else
    ({ t1 with
        status := "failed"
        generationLog := some ("Solver failed: " ++ solverStatusName) }, false)

/-! ## Request validation (schemas.py RuleCreate) -/

/-- A rule-creation request body. -/
structure RuleCreateReq where
  name : String
  ruleType : String
  ruleData : List (String × Nat)
  deriving DecidableEq, Repr

/-- The pydantic validation of RuleCreate: name length in [2, 100] and
rule_type matching the four-alternative pattern.  rule_data is
Dict[str, Any]: no field of it is validated. -/
def validRuleCreate (r : RuleCreateReq) : Bool :=
  decide (2 ≤ r.name.length) && decide (r.name.length ≤ 100) &&
    (r.ruleType == "lunch_window" || r.ruleType == "max_lectures_per_day" ||
      r.ruleType == "gap_preference" || r.ruleType == "forbidden_time_pairs")

/-! ## Concrete instances used to evaluate the code at particular inputs -/

/-- A snapshot whose single assignment teaches a conference-room course while
the only classroom is a lecture room: no decision variable is compatible. -/
def noRoomSnapshot : Snapshot :=
  { assignments := [{ id := 1, courseId := 1, sectionId := 1, teacherId := 1,
                      groupId := none, sectionCode := "S1", teacherName := "T" }]
    teachers := [{ id := 1, name := "T", maxHoursPerDay := 8,
                   availability := none, daysOff := [] }]
    courses := [{ id := 1, name := "C", durationMinutes := 55,
                  sessionsPerWeek := 1, roomType := .conference }]
    classrooms := [{ id := 1, roomId := "R1", roomType := .lecture, capacity := 30 }]
    rules := [] }

/-- The all-zero valuation. -/
def vZero : Valuation := fun _ => false

/-- A snapshot whose teacher has days_off = [0] but no availability matrix. -/
def dayOffSnapshot : Snapshot :=
  { assignments := [{ id := 1, courseId := 1, sectionId := 1, teacherId := 1,
                      groupId := none, sectionCode := "S1", teacherName := "T" }]
    teachers := [{ id := 1, name := "T", maxHoursPerDay := 8,
                   availability := none, daysOff := [0] }]
    courses := [{ id := 1, name := "C", durationMinutes := 55,
                  sessionsPerWeek := 1, roomType := .lecture }]
    classrooms := [{ id := 1, roomId := "R1", roomType := .lecture, capacity := 30 }]
    rules := [] }

/-- A valuation placing the single session on the teacher's day off. -/
def vOnDayOff : Valuation := fun k => k == (1, 1, 0, 3)

/-- A fully available teacher (all-true 5 x 10 matrix, no days off). -/
def freeTeacher : TeacherData :=
  { id := 1, name := "T", maxHoursPerDay := 8,
    availability := some (List.replicate 5 (List.replicate 10 true)), daysOff := [] }

/-- A scheduled slot of a 30-minute course (end_time - start_time = 30),
marked global, to be rescheduled. -/
def thirtyMinuteSlot : SlotRow :=
  { id := 7, deptTimetableId := 1, assignmentId := 1, classroomId := 1,
    dayOfWeek := 2, startTime := 480, endTime := 510, department := "CS",
    isGlobalSlot := true }

/-- A one-row store: department A owns timetable 1 with one slot at
(classroom 1, Monday, slot 0), not yet reserved. -/
def deptARow : SlotRow :=
  { id := 1, deptTimetableId := 1, assignmentId := 1, classroomId := 1,
    dayOfWeek := 0, startTime := 480, endTime := 535, department := "A",
    isGlobalSlot := false }

/-- Coordinator start state over the one-row store, index synced (empty). -/
def deptAState : CoordState := { storage := [deptARow], g := [] }

/-- A database holding exactly one completed timetable and nothing else. -/
def oneTimetableDb : Database :=
  { slots := []
    timetables := [{ id := 1, department := "CS", status := "completed" }]
    classrooms := [] }

/-- The empty coordinator in-memory state. -/
def emptyGlobalState : GlobalState :=
  { globalSlots := [], departmentTimetables := [], sharedResources := [] }

/-- A snapshot with one teacher teaching one two-session course in one
compatible classroom, used to compare gap costs. -/
def gapSnapshot : Snapshot :=
  { assignments := [{ id := 1, courseId := 1, sectionId := 1, teacherId := 1,
                      groupId := none, sectionCode := "S1", teacherName := "T" }]
    teachers := [{ id := 1, name := "T", maxHoursPerDay := 8,
                   availability := none, daysOff := [] }]
    courses := [{ id := 1, name := "C", durationMinutes := 55,
                  sessionsPerWeek := 2, roomType := .lecture }]
    classrooms := [{ id := 1, roomId := "R1", roomType := .lecture, capacity := 30 }]
    rules := [] }

/-- Sessions at day 0, slots 1 and 3: one gap (busy at 1 and 3, idle at 2). -/
def vWithGap : Valuation := fun k => k == (1, 1, 0, 1) || k == (1, 1, 0, 3)

/-- Sessions at day 0, slots 1 and 2: no gap. -/
def vWithoutGap : Valuation := fun k => k == (1, 1, 0, 1) || k == (1, 1, 0, 2)

/-- A lunch_window rule body with start_slot greater than end_slot. -/
def invertedLunchRule : RuleCreateReq :=
  { name := "Lunch", ruleType := "lunch_window"
    ruleData := [("start_slot", 5), ("end_slot", 3)] }

/-- The slot extract_solution emits for dayOffSnapshot under vOnDayOff
(day 0, slot 3: 645 = 480 + 3 * 55 minutes). -/
def dayOffExtracted : ExtractedSlot :=
  { assignmentId := 1, classroomId := 1, dayOfWeek := 0, startTime := 645
    endTime := 700, courseName := "C", sectionCode := "S1", teacherName := "T"
    roomId := "R1" }

/-! # Helper lemmas -/

lemma sum_map_zero {α : Type} (l : List α) (f : α → Nat)
    (h : ∀ x ∈ l, f x = 0) : (l.map f).sum = 0 := by
  induction l with
  | nil => rfl
  | cons a t ih =>
    rw [List.map_cons, List.sum_cons, h a (List.mem_cons_self a t),
      ih (fun x hx => h x (List.mem_cons_of_mem a hx))]

/-! # Claim theorems -/

/-- C1: the claim says a generated timetable always carries
sessions_per_week slots per assignment, and that an assignment whose course
has no compatible classroom makes the solver infeasible.  The code guards
the session-count constraint with "if assignment_vars:", so with no
compatible classroom no variable and no constraint exists: the empty
valuation satisfies every constraint of the built model, extraction yields
no slot for the assignment, and the run completes instead of failing,
although the course requires one session. -/
theorem claim1_session_count_dropped :
    feasibleModel noRoomSnapshot vZero = true ∧
    scheduleKeys noRoomSnapshot = [] ∧
    extractSolution noRoomSnapshot vZero = [] ∧
    (findCourse noRoomSnapshot 1).map (fun c => c.sessionsPerWeek) = some 1 := by
  decide

/-- C2: the claim says no slot for a teacher falls on a day in days_off,
regardless of the availability matrix.  The whole availability block of
add_hard_constraints sits under "if teacher.availability:", so for a teacher
without a matrix days_off is ignored: a valuation placing the only session
on day 0 (the teacher's day off) satisfies every constraint of the model and
extraction emits a slot on that day. -/
theorem claim2_days_off_ignored :
    feasibleModel dayOffSnapshot vOnDayOff = true ∧
    dayOffSnapshot.teachers.map (fun t => t.daysOff) = [[0]] ∧
    dayOffSnapshot.teachers.map (fun t => t.availability) = [none] ∧
    (extractSolution dayOffSnapshot vOnDayOff).map (fun s => s.dayOfWeek) = [0] := by
  decide

/-- C3: the claim says every operation creating or moving a ScheduledSlot
keeps end_time = start_time + duration for every duration in [30, 180].
attempt_reschedule writes end_time = slot_to_time(time_slot + 1), a span of
exactly 55 minutes: rescheduling a slot of a 30-minute course (its stored
times span 30 minutes) produces a slot spanning 55 minutes. -/
theorem claim3_reschedule_breaks_duration :
    thirtyMinuteSlot.endTime - thirtyMinuteSlot.startTime = 30 ∧
    (attemptReschedule [] (some freeTeacher) thirtyMinuteSlot).map
      (fun s => s.endTime - s.startTime) = some 55 := by
  decide

/-- C5 counterexample: the claim says a new generation run is refused when
the timetable status is already generating.  generate_timetable never reads
the status: called on a timetable whose status is generating, it proceeds
and (with a feasible model and a successful save) returns success with
status completed. -/
theorem claim5_counterexample :
    (generateTimetable { status := "generating", generationLog := none }
        true true "OPTIMAL").2 = true ∧
    (generateTimetable { status := "generating", generationLog := none }
        true true "OPTIMAL").1.status = "completed" := by
  decide

/-- C5 amended: generation transitions the timetable status to generating at
the start, and no run is ever refused: the outcome of generate_timetable is
independent of the incoming status (in particular, status generating is
treated like any other). -/
theorem claim5_amended :
    ∀ (s1 s2 : String) (log : Option String) (ss sv : Bool) (name : String),
      (updateStatusToGenerating { status := s1, generationLog := log }).status
          = "generating" ∧
      generateTimetable { status := s1, generationLog := log } ss sv name =
        generateTimetable { status := s2, generationLog := log } ss sv name := by
  intro s1 s2 log ss sv name
  cases ss <;> cases sv <;> exact ⟨rfl, rfl⟩

/-- C5 witness: the amended claim at a timetable already generating versus a
draft one. -/
theorem claim5_amended_witness :
    (updateStatusToGenerating { status := "generating", generationLog := none }).status
        = "generating" ∧
    generateTimetable { status := "generating", generationLog := none } true true "OPTIMAL" =
      generateTimetable { status := "draft", generationLog := none } true true "OPTIMAL" :=
  claim5_amended "generating" "draft" none true true "OPTIMAL"

/-- C6: the claim says load_global_state is idempotent and rebuilds exactly
the storage-derived state.  The function never clears the registry and
appends every completed timetable to its department's list: on a storage
with one completed timetable, running it twice from the empty state lists
the timetable twice, differing from running it once. -/
theorem claim6_load_not_idempotent :
    loadGlobalState oneTimetableDb (loadGlobalState oneTimetableDb emptyGlobalState) ≠
      loadGlobalState oneTimetableDb emptyGlobalState := by
  decide

/-- C8: the claim says each teacher gap adds weight 10 to the minimized
objective, so more gaps mean strictly higher cost.  The gap indicator
booleans are created but never constrained to the busy pattern, so the
objective value is the same for a schedule with a gap and one without, at
every valuation of the gap indicators (the minimizer simply drives them all
to zero). -/
theorem claim8_gap_penalty_vacuous :
    feasibleModel gapSnapshot vWithGap = true ∧
    feasibleModel gapSnapshot vWithoutGap = true ∧
    specGapCount gapSnapshot vWithGap = 1 ∧
    specGapCount gapSnapshot vWithoutGap = 0 ∧
    ∀ gv : GapValuation,
      objectiveValue gapSnapshot vWithGap gv
        = objectiveValue gapSnapshot vWithoutGap gv := by
  refine ⟨by decide, by decide, by decide, by decide, ?_⟩
  intro gv
  have hp : timePreferencePenalty gapSnapshot vWithGap
      = timePreferencePenalty gapSnapshot vWithoutGap := by decide
  have hr : rulesPenalty gapSnapshot vWithGap
      = rulesPenalty gapSnapshot vWithoutGap := by decide
  unfold objectiveValue
  rw [hp, hr]

/-- C9 counterexample: the claim says a lunch_window rule with
start_slot > end_slot is rejected at input validation.  RuleCreate validates
only the name length and the rule_type pattern - rule_data is an arbitrary
dict - so the inverted rule passes validation. -/
theorem claim9_counterexample : validRuleCreate invertedLunchRule = true := by
  decide

/-- C9 amended: a lunch_window rule with start_slot > end_slot passes input
validation (rule_data is never validated) and reaches the model builder,
where the inclusive slot window range(start_slot, end_slot + 1) is empty, so
the rule contributes no penalty at all. -/
theorem claim9_amended (name : String) (rd : List (String × Nat)) (sn : Snapshot)
    (v : Valuation) (h2 : 2 ≤ name.length) (h100 : name.length ≤ 100)
    (hinv : ruleGetD rd "end_slot" 6 < ruleGetD rd "start_slot" 5) :
    validRuleCreate { name := name, ruleType := "lunch_window", ruleData := rd }
        = true ∧
    lunchWindowPenalty sn rd v = 0 := by
  constructor
  · unfold validRuleCreate
    rw [decide_eq_true h2, decide_eq_true h100]
    rfl
  · unfold lunchWindowPenalty
    simp only []
    apply sum_map_zero
    intro a _
    apply sum_map_zero
    intro r _
    apply sum_map_zero
    intro day _
    rw [show ruleGetD rd "end_slot" 6 + 1 - ruleGetD rd "start_slot" 5 = 0 by omega]
    rw [List.range'_zero]
    rfl

/-- C9 witness: the amended claim at the inverted rule body. -/
theorem claim9_amended_witness :
    (2 ≤ "Lunch".length ∧ "Lunch".length ≤ 100 ∧
      ruleGetD invertedLunchRule.ruleData "end_slot" 6 <
        ruleGetD invertedLunchRule.ruleData "start_slot" 5) ∧
    (validRuleCreate { name := "Lunch", ruleType := "lunch_window", ruleData := invertedLunchRule.ruleData } = true ∧
      lunchWindowPenalty noRoomSnapshot invertedLunchRule.ruleData vZero = 0) :=
  ⟨⟨by decide, by decide, by decide⟩,
    claim9_amended "Lunch" invertedLunchRule.ruleData noRoomSnapshot vZero
      (by decide) (by decide) (by decide)⟩

lemma find?_beq_of_nodup {α : Type} (f : α → Nat) (l : List α)
    (h : (l.map f).Nodup) (x : α) (hx : x ∈ l) (p : α → Bool)
    (hp : ∀ y, p y = (f y == f x)) : l.find? p = some x := by
  induction l with
  | nil => exact absurd hx (List.not_mem_nil x)
  | cons a t ih =>
    rcases List.mem_cons.mp hx with hax | hxt
    · subst hax
      exact List.find?_cons_of_pos _ (by rw [hp]; simp)
    · have hne : f a ≠ f x := by
        intro he
        have hmem : f x ∈ t.map f := List.mem_map_of_mem f hxt
        rw [← he] at hmem
        exact (List.nodup_cons.mp h).1 hmem
    -- the predicate fails on the head, recurse into the tail
      rw [List.find?_cons_of_neg _ (by rw [hp]; simp [hne])]
      exact ih (List.nodup_cons.mp h).2 hxt

lemma mem_scheduleKeys (sn : Snapshot) (k : ScheduleKey)
    (hk : k ∈ scheduleKeys sn) :
    ∃ a ∈ sn.assignments, ∃ r ∈ sn.classrooms, ∃ c,
      findCourse sn a.courseId = some c ∧
      isRoomCompatible c.roomType r.roomType = true ∧
      k.1 = a.id ∧ k.2.1 = r.id := by
  unfold scheduleKeys at hk
  rw [List.mem_flatMap] at hk
  obtain ⟨a, ha, hk⟩ := hk
  rw [List.mem_flatMap] at hk
  obtain ⟨r, hr, hk⟩ := hk
  refine ⟨a, ha, r, hr, ?_⟩
  rcases hc : findCourse sn a.courseId with _ | c
  · rw [hc] at hk
    have hk2 : k ∈ ([] : List ScheduleKey) := hk
    exact absurd hk2 (List.not_mem_nil k)
  · rw [hc] at hk
    have hk2 : k ∈ (if isRoomCompatible c.roomType r.roomType then
        (List.range numDays).flatMap fun day =>
          (List.range numSlotsPerDay).map fun slot => (a.id, r.id, day, slot)
      else []) := hk
    by_cases hcompat : isRoomCompatible c.roomType r.roomType = true
    · rw [if_pos hcompat] at hk2
      rw [List.mem_flatMap] at hk2
      obtain ⟨day, _, hk2⟩ := hk2
      rw [List.mem_map] at hk2
      obtain ⟨slot, _, hk2⟩ := hk2
      exact ⟨c, rfl, hcompat, by rw [← hk2], by rw [← hk2]⟩
    · rw [if_neg hcompat] at hk2
      exact absurd hk2 (List.not_mem_nil k)

lemma mem_extractSolution (sn : Snapshot) (v : Valuation) (σ : ExtractedSlot)
    (hσ : σ ∈ extractSolution sn v) :
    ∃ k ∈ scheduleKeys sn,
      σ.assignmentId = k.1 ∧ σ.classroomId = k.2.1 ∧ σ.dayOfWeek = k.2.2.1 ∧
      ∃ a c, sn.assignments.find? (fun x => x.id == k.1) = some a ∧
        findCourse sn a.courseId = some c ∧
        σ.startTime = slotToTimeMin k.2.2.2 ∧
        σ.endTime = addMinutesToTime (slotToTimeMin k.2.2.2) c.durationMinutes := by
  unfold extractSolution at hσ
  rw [List.mem_filterMap] at hσ
  obtain ⟨k, hk, he⟩ := hσ
  refine ⟨k, hk, ?_⟩
  by_cases hv : v k = true
  · rw [if_pos hv] at he
    rcases hfa : sn.assignments.find? (fun a => a.id == k.1) with _ | a <;>
      rcases hfr : sn.classrooms.find? (fun c => c.id == k.2.1) with _ | r <;>
      rw [hfa, hfr] at he
    · exact absurd (show (none : Option ExtractedSlot) = some σ from he) (by simp)
    · exact absurd (show (none : Option ExtractedSlot) = some σ from he) (by simp)
    · exact absurd (show (none : Option ExtractedSlot) = some σ from he) (by simp)
    · have he2 : (match findCourse sn a.courseId with
        | some course =>
          some { assignmentId := k.1, classroomId := k.2.1, dayOfWeek := k.2.2.1
                 startTime := slotToTimeMin k.2.2.2
                 endTime := addMinutesToTime (slotToTimeMin k.2.2.2) course.durationMinutes
                 courseName := course.name, sectionCode := a.sectionCode
                 teacherName := a.teacherName, roomId := r.roomId }
        | none => none) = some σ := he
      rcases hfc : findCourse sn a.courseId with _ | c
      · rw [hfc] at he2
        exact absurd he2 (by simp)
      · rw [hfc] at he2
        injection he2 with he2
        subst he2
        exact ⟨rfl, rfl, rfl, a, c, hfa, hfc, rfl, rfl⟩
  · rw [if_neg hv] at he
    exact absurd (show (none : Option ExtractedSlot) = some σ from he) (by simp)

/-- C7: the compatibility predicate of the code agrees with the spec's
section 3 table on all sixteen pairs of the four room types, and every slot
extract_solution emits pairs a course and classroom the predicate accepts
(under unique assignment and classroom ids, as the primary keys guarantee). -/
theorem claim7_room_compatibility :
    (∀ c r, isRoomCompatible c r = specCompatTable c r) ∧
    ∀ (sn : Snapshot) (v : Valuation) (σ : ExtractedSlot),
      (sn.assignments.map (fun a => a.id)).Nodup →
      (sn.classrooms.map (fun r => r.id)).Nodup →
      σ ∈ extractSolution sn v →
      ∀ a c r,
        sn.assignments.find? (fun x => x.id == σ.assignmentId) = some a →
        findCourse sn a.courseId = some c →
        sn.classrooms.find? (fun x => x.id == σ.classroomId) = some r →
        isRoomCompatible c.roomType r.roomType = true := by
  constructor
  · intro c r
    cases c <;> cases r <;> rfl
  · intro sn v σ hA hR hσ a c r hfa hfc hfr
    obtain ⟨k, hk, hid1, hid2, _, _, _, _, _, _, _⟩ := mem_extractSolution sn v σ hσ
    obtain ⟨a1, ha1, r1, hr1, c1, hfc1, hcompat, hk1, hk2⟩ := mem_scheduleKeys sn k hk
    have hfind_a : sn.assignments.find? (fun x => x.id == σ.assignmentId) = some a1 :=
      find?_beq_of_nodup (fun x => x.id) sn.assignments hA a1 ha1 _
        (fun y => by rw [hid1, hk1])
    have hfind_r : sn.classrooms.find? (fun x => x.id == σ.classroomId) = some r1 :=
      find?_beq_of_nodup (fun x => x.id) sn.classrooms hR r1 hr1 _
        (fun y => by rw [hid2, hk2])
    have haa : a = a1 := by
      have := hfa.symm.trans hfind_a
      exact Option.some.inj this
    subst haa
    have hcc : c = c1 := by
      have := hfc.symm.trans hfc1
      exact Option.some.inj this
    subst hcc
    have hrr : r = r1 := by
      have := hfr.symm.trans hfind_r
      exact Option.some.inj this
    subst hrr
    exact hcompat

/-- C7 witness: the theorem at the day-off snapshot, whose one extracted slot
pairs a lecture course with a lecture classroom. -/
theorem claim7_witness :
    ((dayOffSnapshot.assignments.map (fun a => a.id)).Nodup ∧
      (dayOffSnapshot.classrooms.map (fun r => r.id)).Nodup ∧
      dayOffExtracted ∈ extractSolution dayOffSnapshot vOnDayOff ∧
      dayOffSnapshot.assignments.find?
        (fun x => x.id == dayOffExtracted.assignmentId) =
          some { id := 1, courseId := 1, sectionId := 1, teacherId := 1, groupId := none, sectionCode := "S1", teacherName := "T" } ∧
      findCourse dayOffSnapshot 1 =
        some { id := 1, name := "C", durationMinutes := 55, sessionsPerWeek := 1, roomType := .lecture } ∧
      dayOffSnapshot.classrooms.find?
        (fun x => x.id == dayOffExtracted.classroomId) =
          some { id := 1, roomId := "R1", roomType := .lecture, capacity := 30 }) ∧
    isRoomCompatible RoomType.lecture RoomType.lecture = true :=
  ⟨⟨by decide, by decide, by decide, by decide, by decide, by decide⟩,
    claim7_room_compatibility.2 dayOffSnapshot vOnDayOff dayOffExtracted
      (by decide) (by decide) (by decide)
      { id := 1, courseId := 1, sectionId := 1, teacherId := 1, groupId := none, sectionCode := "S1", teacherName := "T" }
      { id := 1, name := "C", durationMinutes := 55, sessionsPerWeek := 1, roomType := .lecture }
      { id := 1, roomId := "R1", roomType := .lecture, capacity := 30 }
      (by decide) (by decide) (by decide)⟩

/-! ## Association-list lemmas for the coordinator index -/

lemma gEntries_ne_nil_iff (g : GMap) (c : Cell) :
    gEntries g c ≠ [] ↔ c ∈ g.map (fun e => e.1) := by
  constructor
  · intro h
    obtain ⟨e, he⟩ := List.exists_mem_of_ne_nil _ h
    obtain ⟨hg, hkey⟩ := List.mem_filter.mp he
    rw [List.mem_map]
    exact ⟨e, hg, eq_of_beq hkey⟩
  · intro h
    rw [List.mem_map] at h
    obtain ⟨e, he, hk⟩ := h
    apply List.ne_nil_of_mem (a := e)
    exact List.mem_filter.mpr ⟨he, by rw [hk]; exact beq_self_eq_true c⟩

lemma gLookup_eq_entries_head (g : GMap) (c : Cell) :
    gLookup g c = (gEntries g c).head?.map (fun e => e.2) := by
  induction g with
  | nil => rfl
  | cons e t ih =>
    by_cases hk : (e.1 == c) = true
    · unfold gLookup gEntries
      rw [List.find?_cons_of_pos (p := fun e : Cell × String => e.1 == c) _ hk,
        List.filter_cons_of_pos (p := fun e : Cell × String => e.1 == c) hk]
      rfl
    · unfold gLookup gEntries at ih ⊢
      rw [List.find?_cons_of_neg (p := fun e : Cell × String => e.1 == c) _ hk,
        List.filter_cons_of_neg (p := fun e : Cell × String => e.1 == c) hk]
      exact ih

lemma gEntries_replace_self (g : GMap) (c : Cell) (d : String) :
    gEntries (g.map (fun e => if e.1 == c then (c, d) else e)) c =
      (gEntries g c).map (fun _ => (c, d)) := by
  induction g with
  | nil => rfl
  | cons e t ih =>
    unfold gEntries at ih ⊢
    rw [List.map_cons]
    by_cases hk : (e.1 == c) = true
    · rw [if_pos hk,
        List.filter_cons_of_pos (p := fun e : Cell × String => e.1 == c) (beq_self_eq_true c),
        List.filter_cons_of_pos (p := fun e : Cell × String => e.1 == c) hk, List.map_cons]
      rw [ih]
    · rw [if_neg hk, List.filter_cons_of_neg (p := fun e : Cell × String => e.1 == c) hk,
        List.filter_cons_of_neg (p := fun e : Cell × String => e.1 == c) hk]
      exact ih

lemma gEntries_replace_ne (g : GMap) (c c' : Cell) (d : String) (hne : c' ≠ c) :
    gEntries (g.map (fun e => if e.1 == c then (c, d) else e)) c' = gEntries g c' := by
  induction g with
  | nil => rfl
  | cons e t ih =>
    unfold gEntries at ih ⊢
    rw [List.map_cons]
    by_cases hk : (e.1 == c) = true
    · have he1 : e.1 = c := eq_of_beq hk
      have h1 : ((c, d).1 == c') = false :=
        beq_eq_false_iff_ne.mpr (fun h => hne h.symm)
      have h2 : (e.1 == c') = false := by
        rw [he1]
        exact beq_eq_false_iff_ne.mpr (fun h => hne h.symm)
      rw [if_pos hk,
        List.filter_cons_of_neg (p := fun e : Cell × String => e.1 == c')
          (by show ¬((c, d).1 == c') = true; rw [h1]; exact Bool.false_ne_true),
        List.filter_cons_of_neg (p := fun e : Cell × String => e.1 == c')
          (by show ¬(e.1 == c') = true; rw [h2]; exact Bool.false_ne_true)]
      exact ih
    · rw [if_neg hk,
        List.filter_cons (p := fun e : Cell × String => e.1 == c'),
        List.filter_cons (p := fun e : Cell × String => e.1 == c'), ih]

lemma gEntries_gErase_self (g : GMap) (c : Cell) : gEntries (gErase g c) c = [] := by
  unfold gEntries gErase
  rw [List.filter_filter]
  apply List.filter_eq_nil_iff.mpr
  intro e _
  simp

lemma gEntries_gErase_ne (g : GMap) (c c' : Cell) (hne : c' ≠ c) :
    gEntries (gErase g c) c' = gEntries g c' := by
  unfold gEntries gErase
  rw [List.filter_filter]
  apply List.filter_congr
  intro e _
  by_cases hk : (e.1 == c') = true
  · have hc : (e.1 == c) = false :=
      beq_eq_false_iff_ne.mpr (fun h => hne ((eq_of_beq hk).symm.trans h))
    rw [hk, hc]
    rfl
  · rw [Bool.not_eq_true] at hk
    rw [hk]
    simp

lemma gEntries_gInsert_self (g : GMap) (c : Cell) (d : String)
    (h : (gEntries g c).length ≤ 1) : gEntries (gInsert g c d) c = [(c, d)] := by
  unfold gInsert
  by_cases hany : g.any (fun e => e.1 == c) = true
  · rw [if_pos hany, gEntries_replace_self]
    have hne : gEntries g c ≠ [] := by
      rw [List.any_eq_true] at hany
      obtain ⟨e, he, hk⟩ := hany
      exact List.ne_nil_of_mem (List.mem_filter.mpr ⟨he, hk⟩)
    have hone : (gEntries g c).length = 1 := by
      rcases h' : gEntries g c with _ | ⟨x, xs⟩
      · exact absurd h' hne
      · rw [h'] at h
        simp only [List.length_cons] at h ⊢
        omega
    obtain ⟨e, he⟩ := List.length_eq_one.mp hone
    rw [he]
    rfl
  · rw [if_neg hany]
    unfold gEntries
    rw [List.filter_append]
    have h0 : gEntries g c = [] := by
      by_contra hne
      obtain ⟨e, he, hk⟩ := List.mem_map.mp ((gEntries_ne_nil_iff g c).mp hne)
      exact hany (List.any_eq_true.mpr ⟨e, he, by rw [hk]; exact beq_self_eq_true c⟩)
    rw [show List.filter (fun e => e.1 == c) g = gEntries g c from rfl, h0]
    simp

lemma gEntries_gInsert_ne (g : GMap) (c c' : Cell) (d : String) (hne : c' ≠ c) :
    gEntries (gInsert g c d) c' = gEntries g c' := by
  unfold gInsert
  by_cases hany : g.any (fun e => e.1 == c) = true
  · rw [if_pos hany]
    exact gEntries_replace_ne g c c' d hne
  · rw [if_neg hany]
    unfold gEntries
    rw [List.filter_append]
    have h1 : List.filter (fun e => e.1 == c') [(c, d)] = [] := by
      simp [beq_eq_false_iff_ne.mpr (fun h : c = c' => hne h.symm)]
    rw [h1, List.append_nil]

lemma gInsert_entries_len (g : GMap) (c : Cell) (d : String)
    (h : ∀ c0, (gEntries g c0).length ≤ 1) :
    ∀ c0, (gEntries (gInsert g c d) c0).length ≤ 1 := by
  intro c0
  by_cases hc : c0 = c
  · subst hc
    rw [gEntries_gInsert_self g c0 d (h c0)]
    simp
  · rw [gEntries_gInsert_ne g c c0 d hc]
    exact h c0

/-! ## Fold lemmas for the reserve and release loops -/

lemma fold_reserveStep_entries (department : String) :
    ∀ (ts : List SlotRow) (g : GMap) (c : Cell),
      (∀ c0, (gEntries g c0).length ≤ 1) →
      gEntries (ts.foldl (reserveStep department) g) c =
        if ∃ r ∈ ts, cellOf r = c then [(c, department)] else gEntries g c := by
  intro ts
  induction ts with
  | nil =>
    intro g c _
    rw [if_neg (by simp)]
    rfl
  | cons t rest ih =>
    intro g c h
    rw [List.foldl_cons,
      ih (reserveStep department g t) c (gInsert_entries_len g (cellOf t) department h)]
    by_cases hc : cellOf t = c
    · have hex : ∃ r ∈ t :: rest, cellOf r = c := ⟨t, List.mem_cons_self t rest, hc⟩
      rw [if_pos hex]
      by_cases hrest : ∃ r ∈ rest, cellOf r = c
      · rw [if_pos hrest]
      · rw [if_neg hrest]
        show gEntries (gInsert g (cellOf t) department) c = [(c, department)]
        rw [hc]
        exact gEntries_gInsert_self g c department (h c)
    · by_cases hrest : ∃ r ∈ rest, cellOf r = c
      · obtain ⟨r, hr, hrc⟩ := hrest
        rw [if_pos ⟨r, hr, hrc⟩, if_pos ⟨r, List.mem_cons_of_mem t hr, hrc⟩]
      · rw [if_neg hrest, if_neg (by
          rintro ⟨r, hrmem, hrc⟩
          rcases List.mem_cons.mp hrmem with rfl | hmem
          · exact hc hrc
          · exact hrest ⟨r, hmem, hrc⟩)]
        show gEntries (gInsert g (cellOf t) department) c = gEntries g c
        exact gEntries_gInsert_ne g (cellOf t) c department (fun h' => hc h'.symm)

lemma fold_releaseStep_keep (department : String) :
    ∀ (ts : List SlotRow) (g : GMap) (c : Cell),
      (∀ r ∈ ts, cellOf r ≠ c) →
      gEntries (ts.foldl (releaseStep department) g) c = gEntries g c := by
  intro ts
  induction ts with
  | nil => intro g c _; rfl
  | cons t rest ih =>
    intro g c h
    rw [List.foldl_cons, ih _ c (fun r hr => h r (List.mem_cons_of_mem t hr))]
    unfold releaseStep
    by_cases hcond : (gLookup g (cellOf t) == some department) = true
    · rw [if_pos hcond]
      exact gEntries_gErase_ne g (cellOf t) c
        (fun he => h t (List.mem_cons_self t rest) he.symm)
    · rw [if_neg hcond]

lemma fold_releaseStep_erase (department : String) :
    ∀ (ts : List SlotRow) (g : GMap) (c : Cell),
      (ts.map cellOf).Nodup →
      gEntries g c = [(c, department)] →
      (∃ r ∈ ts, cellOf r = c) →
      gEntries (ts.foldl (releaseStep department) g) c = [] := by
  intro ts
  induction ts with
  | nil =>
    intro g c _ _ hex
    exact absurd hex (by simp)
  | cons t rest ih =>
    intro g c hnd hone hex
    rw [List.foldl_cons]
    by_cases hc : cellOf t = c
    · have hlk : gLookup g (cellOf t) = some department := by
        rw [hc, gLookup_eq_entries_head, hone]
        rfl
      have hstep : releaseStep department g t = gErase g (cellOf t) := by
        unfold releaseStep
        rw [if_pos (by rw [hlk]; exact beq_self_eq_true (some department))]
      have hrest : ∀ r ∈ rest, cellOf r ≠ c := by
        intro r hr he
        apply (List.nodup_cons.mp hnd).1
        rw [hc, ← he]
        exact List.mem_map_of_mem cellOf hr
      rw [hstep, fold_releaseStep_keep department rest _ c hrest, ← hc]
      exact gEntries_gErase_self g (cellOf t)
    · obtain ⟨r, hrmem, hrc⟩ := hex
      have hr : r ∈ rest := by
        rcases List.mem_cons.mp hrmem with rfl | h'
        · exact absurd hrc hc
        · exact h'
      by_cases hcond : (gLookup g (cellOf t) == some department) = true
      · have hstep : releaseStep department g t = gErase g (cellOf t) := by
          unfold releaseStep
          rw [if_pos hcond]
        rw [hstep]
        refine ih (gErase g (cellOf t)) c (List.nodup_cons.mp hnd).2 ?_ ⟨r, hr, hrc⟩
        rw [gEntries_gErase_ne g (cellOf t) c (fun he => hc he.symm)]
        exact hone
      · have hstep : releaseStep department g t = g := by
          unfold releaseStep
          rw [if_neg hcond]
        rw [hstep]
        exact ih g c (List.nodup_cons.mp hnd).2 hone ⟨r, hr, hrc⟩

/-! ## The storage-induced index -/

lemma gSpec_cons (t : SlotRow) (rest : List SlotRow) :
    gSpec (t :: rest) =
      if t.isGlobalSlot then (cellOf t, t.department) :: gSpec rest
      else gSpec rest := by
  unfold gSpec
  by_cases hg : t.isGlobalSlot = true
  · rw [List.filter_cons_of_pos hg, List.map_cons, if_pos hg]
  · rw [List.filter_cons_of_neg hg, if_neg hg]

lemma gEntries_gSpec_nil_of (storage : List SlotRow) (c : Cell)
    (h : ∀ r ∈ storage, r.isGlobalSlot = true → cellOf r ≠ c) :
    gEntries (gSpec storage) c = [] := by
  induction storage with
  | nil => rfl
  | cons t rest ih =>
    rw [gSpec_cons]
    have ihr := ih (fun r hr => h r (List.mem_cons_of_mem t hr))
    by_cases hg : t.isGlobalSlot = true
    · rw [if_pos hg]
      unfold gEntries at ihr ⊢
      rw [List.filter_cons_of_neg (p := fun e : Cell × String => e.1 == c)
        (by
          show ¬((cellOf t, t.department).1 == c) = true
          rw [beq_eq_false_iff_ne.mpr (h t (List.mem_cons_self t rest) hg)]
          exact Bool.false_ne_true)]
      exact ihr
    · rw [if_neg hg]
      exact ihr

lemma gEntries_gSpec_of_mem (storage : List SlotRow) (c : Cell)
    (hnd : (storage.map cellOf).Nodup) (r : SlotRow) (hr : r ∈ storage)
    (hc : cellOf r = c) (hg : r.isGlobalSlot = true) :
    gEntries (gSpec storage) c = [(c, r.department)] := by
  induction storage with
  | nil => cases hr
  | cons t rest ih =>
    rw [gSpec_cons]
    rcases List.mem_cons.mp hr with rfl | hmem
    · rw [if_pos hg]
      have htail : gEntries (gSpec rest) c = [] := by
        apply gEntries_gSpec_nil_of
        intro r' hr' _ he
        apply (List.nodup_cons.mp hnd).1
        rw [hc, ← he]
        exact List.mem_map_of_mem cellOf hr'
      unfold gEntries at htail ⊢
      rw [List.filter_cons_of_pos (p := fun e : Cell × String => e.1 == c)
        (by show ((cellOf r, r.department).1 == c) = true; rw [hc]; exact beq_self_eq_true c)]
      rw [htail, hc]
    · have hnodt := List.nodup_cons.mp hnd
      have ihr := ih hnodt.2 hmem
      by_cases hgt : t.isGlobalSlot = true
      · rw [if_pos hgt]
        unfold gEntries at ihr ⊢
        rw [List.filter_cons_of_neg (p := fun e : Cell × String => e.1 == c)
          (by
            show ¬((cellOf t, t.department).1 == c) = true
            have hne : cellOf t ≠ c := by
              intro he
              apply hnodt.1
              rw [he, ← hc]
              exact List.mem_map_of_mem cellOf hmem
            rw [beq_eq_false_iff_ne.mpr hne]
            exact Bool.false_ne_true)]
        exact ihr
      · rw [if_neg hgt]
        exact ihr

lemma gEntries_gSpec_len (storage : List SlotRow) (c : Cell)
    (hnd : (storage.map cellOf).Nodup) :
    (gEntries (gSpec storage) c).length ≤ 1 := by
  by_cases hex : ∃ r ∈ storage, r.isGlobalSlot = true ∧ cellOf r = c
  · obtain ⟨r, hr, hg, hc⟩ := hex
    rw [gEntries_gSpec_of_mem storage c hnd r hr hc hg]
    simp
  · rw [gEntries_gSpec_nil_of storage c
      (fun r hr hg hc => hex ⟨r, hr, hg, hc⟩)]
    simp

lemma gSpec_keys (storage : List SlotRow) :
    (gSpec storage).map (fun e => e.1) =
      (storage.filter (fun r => r.isGlobalSlot)).map cellOf := by
  unfold gSpec
  rw [List.map_map]
  rfl

lemma gEntries_gSpec_map (storage : List SlotRow) (f : SlotRow → SlotRow) (c : Cell)
    (hcell : ∀ r ∈ storage, cellOf (f r) = cellOf r)
    (hdept : ∀ r ∈ storage, (f r).department = r.department)
    (hglob : ∀ r ∈ storage, cellOf r = c → (f r).isGlobalSlot = r.isGlobalSlot) :
    gEntries (gSpec (storage.map f)) c = gEntries (gSpec storage) c := by
  induction storage with
  | nil => rfl
  | cons t rest ih =>
    rw [List.map_cons, gSpec_cons, gSpec_cons]
    have ihr := ih (fun r hr => hcell r (List.mem_cons_of_mem t hr))
      (fun r hr => hdept r (List.mem_cons_of_mem t hr))
      (fun r hr => hglob r (List.mem_cons_of_mem t hr))
    by_cases hc : cellOf t = c
    · have hfg : (f t).isGlobalSlot = t.isGlobalSlot :=
        hglob t (List.mem_cons_self t rest) hc
      by_cases hg : t.isGlobalSlot = true
      · rw [if_pos hg, if_pos (hfg.trans hg)]
        unfold gEntries at ihr ⊢
        rw [List.filter_cons_of_pos (p := fun e : Cell × String => e.1 == c)
          (by
            show ((cellOf (f t), (f t).department).1 == c) = true
            rw [hcell t (List.mem_cons_self t rest), hc]
            exact beq_self_eq_true c)]
        rw [List.filter_cons_of_pos (p := fun e : Cell × String => e.1 == c)
          (by
            show ((cellOf t, t.department).1 == c) = true
            rw [hc]
            exact beq_self_eq_true c)]
        rw [hcell t (List.mem_cons_self t rest), hdept t (List.mem_cons_self t rest), ihr]
      · rw [if_neg (by rw [hfg]; exact hg), if_neg hg]
        exact ihr
    · have hkeyt : ¬((cellOf t, t.department).1 == c) = true := by
        show ¬(cellOf t == c) = true
        rw [beq_eq_false_iff_ne.mpr hc]
        exact Bool.false_ne_true
      have hkeyf : ¬((cellOf (f t), (f t).department).1 == c) = true := by
        show ¬(cellOf (f t) == c) = true
        rw [hcell t (List.mem_cons_self t rest), beq_eq_false_iff_ne.mpr hc]
        exact Bool.false_ne_true
      by_cases hfg : (f t).isGlobalSlot = true
      · rw [if_pos hfg]
        by_cases hg : t.isGlobalSlot = true
        · rw [if_pos hg]
          unfold gEntries at ihr ⊢
          rw [List.filter_cons_of_neg (p := fun e : Cell × String => e.1 == c) hkeyf,
            List.filter_cons_of_neg (p := fun e : Cell × String => e.1 == c) hkeyt]
          exact ihr
        · rw [if_neg hg]
          unfold gEntries at ihr ⊢
          rw [List.filter_cons_of_neg (p := fun e : Cell × String => e.1 == c) hkeyf]
          exact ihr
      · rw [if_neg hfg]
        by_cases hg : t.isGlobalSlot = true
        · rw [if_pos hg]
          unfold gEntries at ihr ⊢
          rw [List.filter_cons_of_neg (p := fun e : Cell × String => e.1 == c) hkeyt]
          exact ihr
        · rw [if_neg hg]
          exact ihr

/-! ## Reserve and release preserve the synchronization invariant -/

lemma reserveToggle_static (ttId : Nat) (ids : List Nat) (r : SlotRow) :
    (reserveToggle ttId ids r).deptTimetableId = r.deptTimetableId ∧
    (reserveToggle ttId ids r).id = r.id ∧
    cellOf (reserveToggle ttId ids r) = cellOf r ∧
    (reserveToggle ttId ids r).department = r.department := by
  unfold reserveToggle
  by_cases h : reserveTargeted ttId ids r = true
  · rw [if_pos h]
    exact ⟨rfl, rfl, rfl, rfl⟩
  · rw [if_neg h]
    exact ⟨rfl, rfl, rfl, rfl⟩

lemma releaseClear_static (ttId : Nat) (r : SlotRow) :
    (releaseClear ttId r).deptTimetableId = r.deptTimetableId ∧
    (releaseClear ttId r).id = r.id ∧
    cellOf (releaseClear ttId r) = cellOf r ∧
    (releaseClear ttId r).department = r.department := by
  unfold releaseClear
  by_cases h : releaseTargeted ttId r = true
  · rw [if_pos h]
    exact ⟨rfl, rfl, rfl, rfl⟩
  · rw [if_neg h]
    exact ⟨rfl, rfl, rfl, rfl⟩

lemma deptConsistent_apply (storage : List SlotRow) (op : CoordOp)
    (h : deptConsistent storage op = true) (r : SlotRow) (hr : r ∈ storage)
    (ht : r.deptTimetableId = op.callerTt) : r.department = op.callerDept := by
  unfold deptConsistent at h
  rw [List.all_eq_true] at h
  have h2 : (!(r.deptTimetableId == op.callerTt) || r.department == op.callerDept)
      = true := h r hr
  rw [ht, beq_self_eq_true, Bool.not_true, Bool.false_or] at h2
  exact eq_of_beq h2

lemma synced_reserve (st : CoordState) (department : String) (ttId : Nat)
    (ids : List Nat) (hs : Synced st) (hnd : (st.storage.map cellOf).Nodup)
    (hdc : deptConsistent st.storage (.reserve department ttId ids) = true) :
    Synced (reserveGlobalSlots st department ttId ids).1 := by
  intro c
  have hlen : ∀ c0, (gEntries st.g c0).length ≤ 1 := by
    intro c0
    rw [hs c0]
    exact gEntries_gSpec_len st.storage c0 hnd
  show gEntries
      (((st.storage.map (reserveToggle ttId ids)).filter
          (fun r => reserveTargeted ttId ids r && r.isGlobalSlot)).foldl
        (reserveStep department) st.g) c
    = gEntries (gSpec (st.storage.map (reserveToggle ttId ids))) c
  rw [fold_reserveStep_entries department _ st.g c hlen]
  have hnd2 : ((st.storage.map (reserveToggle ttId ids)).map cellOf).Nodup := by
    rw [List.map_map]
    have hcong : List.map (cellOf ∘ reserveToggle ttId ids) st.storage
        = List.map cellOf st.storage :=
      List.map_congr_left (fun r _ => (reserveToggle_static ttId ids r).2.2.1)
    rw [hcong]
    exact hnd
  by_cases hex : ∃ r ∈ (st.storage.map (reserveToggle ttId ids)).filter
      (fun r => reserveTargeted ttId ids r && r.isGlobalSlot), cellOf r = c
  · rw [if_pos hex]
    obtain ⟨t, htmem, htc⟩ := hex
    obtain ⟨htmem2, hpred⟩ := List.mem_filter.mp htmem
    rw [Bool.and_eq_true] at hpred
    obtain ⟨htarget, hglobal⟩ := hpred
    obtain ⟨r0, hr0, rfl⟩ := List.mem_map.mp htmem2
    have htarget0 : reserveTargeted ttId ids r0 = true := by
      unfold reserveTargeted at htarget ⊢
      rwa [(reserveToggle_static ttId ids r0).1,
        (reserveToggle_static ttId ids r0).2.1] at htarget
    have hdeptr0 : r0.department = department := by
      unfold reserveTargeted at htarget0
      rw [Bool.and_eq_true] at htarget0
      exact deptConsistent_apply st.storage _ hdc r0 hr0 (eq_of_beq htarget0.1)
    rw [gEntries_gSpec_of_mem _ c hnd2 (reserveToggle ttId ids r0) htmem2 htc hglobal]
    rw [(reserveToggle_static ttId ids r0).2.2.2, hdeptr0]
  · rw [if_neg hex, hs c]
    symm
    apply gEntries_gSpec_map st.storage (reserveToggle ttId ids) c
      (fun r _ => (reserveToggle_static ttId ids r).2.2.1)
      (fun r _ => (reserveToggle_static ttId ids r).2.2.2)
    intro r hr hc
    by_cases ht : reserveTargeted ttId ids r = true
    · exfalso
      apply hex
      refine ⟨reserveToggle ttId ids r,
        List.mem_filter.mpr ⟨List.mem_map_of_mem _ hr, ?_⟩, ?_⟩
      · have e1 : reserveTargeted ttId ids (reserveToggle ttId ids r) = true := by
          unfold reserveTargeted at ht ⊢
          rwa [(reserveToggle_static ttId ids r).1,
            (reserveToggle_static ttId ids r).2.1]
        have e2 : (reserveToggle ttId ids r).isGlobalSlot = true := by
          unfold reserveToggle
          rw [if_pos ht]
        rw [e1, e2]
        rfl
      · rw [(reserveToggle_static ttId ids r).2.2.1]
        exact hc
    · unfold reserveToggle
      rw [if_neg ht]

lemma synced_release (st : CoordState) (department : String) (ttId : Nat)
    (hs : Synced st) (hnd : (st.storage.map cellOf).Nodup)
    (hdc : deptConsistent st.storage (.release department ttId) = true) :
    Synced (releaseGlobalSlots st department ttId).1 := by
  intro c
  show gEntries ((st.storage.filter (releaseTargeted ttId)).foldl
      (releaseStep department) st.g) c
    = gEntries (gSpec (st.storage.map (releaseClear ttId))) c
  by_cases hex : ∃ r ∈ st.storage.filter (releaseTargeted ttId), cellOf r = c
  · obtain ⟨r, hrmem, hrc⟩ := hex
    obtain ⟨hrstore, hrt⟩ := List.mem_filter.mp hrmem
    have hrt2 : (r.deptTimetableId == ttId && r.isGlobalSlot) = true := hrt
    rw [Bool.and_eq_true] at hrt2
    obtain ⟨hrtt, hrg⟩ := hrt2
    have hrdept : r.department = department :=
      deptConsistent_apply st.storage _ hdc r hrstore (eq_of_beq hrtt)
    have hone : gEntries st.g c = [(c, department)] := by
      rw [hs c, gEntries_gSpec_of_mem st.storage c hnd r hrstore hrc hrg, hrdept]
    have hndf : ((st.storage.filter (releaseTargeted ttId)).map cellOf).Nodup :=
      List.Nodup.sublist (List.Sublist.map cellOf (List.filter_sublist st.storage)) hnd
    rw [fold_releaseStep_erase department _ st.g c hndf hone ⟨r, hrmem, hrc⟩]
    symm
    apply gEntries_gSpec_nil_of
    intro r' hr' hg' he'
    obtain ⟨r0, hr0, rfl⟩ := List.mem_map.mp hr'
    by_cases ht0 : releaseTargeted ttId r0 = true
    · unfold releaseClear at hg'
      rw [if_pos ht0] at hg'
      exact absurd hg' (by simp)
    · have hcl : releaseClear ttId r0 = r0 := by
        unfold releaseClear
        rw [if_neg ht0]
      rw [hcl] at hg' he'
      have hr0r : r0 = r :=
        List.inj_on_of_nodup_map hnd hr0 hrstore (he'.trans hrc.symm)
      subst hr0r
      apply ht0
      unfold releaseTargeted
      rw [hrtt, hg']
      rfl
  · rw [fold_releaseStep_keep department _ st.g c (fun r hr he => hex ⟨r, hr, he⟩),
      hs c]
    symm
    apply gEntries_gSpec_map st.storage (releaseClear ttId) c
      (fun r _ => (releaseClear_static ttId r).2.2.1)
      (fun r _ => (releaseClear_static ttId r).2.2.2)
    intro r hr hc
    by_cases ht : releaseTargeted ttId r = true
    · exact absurd ⟨r, List.mem_filter.mpr ⟨hr, ht⟩, hc⟩ hex
    · unfold releaseClear
      rw [if_neg ht]

/-! ## Operation sequences -/

lemma applyOp_storage_map (st : CoordState) (op : CoordOp) :
    ∃ f : SlotRow → SlotRow,
      (applyOp st op).storage = st.storage.map f ∧
      ∀ r, (f r).deptTimetableId = r.deptTimetableId ∧
        (f r).department = r.department ∧ cellOf (f r) = cellOf r := by
  cases op with
  | reserve d t ids =>
    exact ⟨reserveToggle t ids, rfl, fun r =>
      ⟨(reserveToggle_static t ids r).1, (reserveToggle_static t ids r).2.2.2,
        (reserveToggle_static t ids r).2.2.1⟩⟩
  | release d t =>
    exact ⟨releaseClear t, rfl, fun r =>
      ⟨(releaseClear_static t r).1, (releaseClear_static t r).2.2.2,
        (releaseClear_static t r).2.2.1⟩⟩

lemma cells_applyOp (st : CoordState) (op : CoordOp) :
    (applyOp st op).storage.map cellOf = st.storage.map cellOf := by
  obtain ⟨f, hmap, hf⟩ := applyOp_storage_map st op
  rw [hmap, List.map_map]
  exact List.map_congr_left (fun r _ => (hf r).2.2)

lemma deptConsistent_applyOp (st : CoordState) (op op' : CoordOp)
    (h : deptConsistent st.storage op' = true) :
    deptConsistent (applyOp st op).storage op' = true := by
  obtain ⟨f, hmap, hf⟩ := applyOp_storage_map st op
  unfold deptConsistent at h ⊢
  rw [List.all_eq_true] at h ⊢
  intro r' hr'
  rw [hmap] at hr'
  obtain ⟨r, hr, rfl⟩ := List.mem_map.mp hr'
  show (!((f r).deptTimetableId == op'.callerTt) ||
    (f r).department == op'.callerDept) = true
  rw [(hf r).1, (hf r).2.1]
  exact h r hr

lemma synced_applyOps :
    ∀ (ops : List CoordOp) (st : CoordState), Synced st →
      (st.storage.map cellOf).Nodup →
      (∀ op ∈ ops, deptConsistent st.storage op = true) →
      Synced (applyOps st ops) := by
  intro ops
  induction ops with
  | nil => intro st hs _ _; exact hs
  | cons op rest ih =>
    intro st hs hnd hops
    show Synced (applyOps (applyOp st op) rest)
    refine ih (applyOp st op) ?_ ?_ ?_
    · cases op with
      | reserve d t ids =>
        exact synced_reserve st d t ids hs hnd
          (hops _ (List.mem_cons_self _ rest))
      | release d t =>
        exact synced_release st d t hs hnd (hops _ (List.mem_cons_self _ rest))
    · rw [cells_applyOp]
      exact hnd
    · intro op' hop'
      exact deptConsistent_applyOp st op op'
        (hops op' (List.mem_cons_of_mem _ hop'))

lemma cells_applyOps :
    ∀ (ops : List CoordOp) (st : CoordState),
      (applyOps st ops).storage.map cellOf = st.storage.map cellOf := by
  intro ops
  induction ops with
  | nil => intro st; rfl
  | cons op rest ih =>
    intro st
    show (applyOps (applyOp st op) rest).storage.map cellOf = _
    rw [ih (applyOp st op), cells_applyOp]

lemma count_le_one_of_nodup {α : Type} [BEq α] [LawfulBEq α] :
    ∀ (l : List α), l.Nodup → ∀ a, l.count a ≤ 1 := by
  intro l
  induction l with
  | nil => intro _ a; simp
  | cons x t ih =>
    intro h a
    rw [List.count_cons]
    obtain ⟨hx, ht⟩ := List.nodup_cons.mp h
    by_cases he : (x == a) = true
    · rw [if_pos he]
      have hxa : x = a := eq_of_beq he
      have h0 : t.count a = 0 := List.count_eq_zero.mpr (by rw [← hxa]; exact hx)
      omega
    · rw [if_neg he]
      have := ih ht a
      omega

lemma validate_of_synced (st : CoordState) (hs : Synced st)
    (hnd : (st.storage.map cellOf).Nodup) :
    validateGlobalConsistency st = true := by
  have hmemiff : ∀ c : Cell, c ∈ memorySlotKeys st ↔ c ∈ dbSlotKeys st := by
    intro c
    constructor
    · intro h
      have h1 : gEntries st.g c ≠ [] := (gEntries_ne_nil_iff st.g c).mpr h
      rw [hs c] at h1
      have h2 := (gEntries_ne_nil_iff _ c).mp h1
      rw [gSpec_keys] at h2
      exact h2
    · intro h
      have h2 : c ∈ (gSpec st.storage).map (fun e => e.1) := by
        rw [gSpec_keys]
        exact h
      have h1 : gEntries (gSpec st.storage) c ≠ [] :=
        (gEntries_ne_nil_iff _ c).mpr h2
      rw [← hs c] at h1
      exact (gEntries_ne_nil_iff st.g c).mp h1
  unfold validateGlobalConsistency
  rw [Bool.and_eq_true, Bool.and_eq_true]
  refine ⟨⟨?_, ?_⟩, ?_⟩
  · rw [List.isEmpty_iff]
    apply List.filter_eq_nil_iff.mpr
    intro c hc
    have hcont : (dbSlotKeys st).contains c = true :=
      List.elem_iff.mpr ((hmemiff c).mp hc)
    rw [hcont]
    simp
  · rw [List.isEmpty_iff]
    apply List.filter_eq_nil_iff.mpr
    intro c hc
    have hcont : (memorySlotKeys st).contains c = true :=
      List.elem_iff.mpr ((hmemiff c).mpr hc)
    rw [hcont]
    simp
  · rw [List.isEmpty_iff]
    apply List.filter_eq_nil_iff.mpr
    intro c _
    have hnodb : (dbSlotKeys st).Nodup :=
      List.Nodup.sublist (List.Sublist.map cellOf (List.filter_sublist st.storage)) hnd
    have hcount := count_le_one_of_nodup (dbSlotKeys st) hnodb c
    simp only [decide_eq_true_eq]
    omega

lemma entries_of_synced (st : CoordState) (hs : Synced st)
    (hnd : (st.storage.map cellOf).Nodup) :
    ∀ r ∈ st.storage, r.isGlobalSlot = true →
      gEntries st.g (cellOf r) = [(cellOf r, r.department)] := by
  intro r hr hg
  rw [hs (cellOf r)]
  exact gEntries_gSpec_of_mem st.storage (cellOf r) hnd r hr rfl hg

/-- C4 counterexample: the claim quantifies over arbitrary reserve and
release calls.  From a synced one-row state, reserve by department A then
release by department B clears the row in storage but leaves the index entry
(release only deletes entries mapping to the calling department), so
validate_global_state reports an orphaned in-memory cell. -/
theorem claim4_counterexample :
    validateGlobalConsistency
      (applyOps deptAState [CoordOp.reserve "A" 1 [1], CoordOp.release "B" 1])
      = false := by
  decide

/-- C4 amended: after any finite sequence of reserve and release calls in
which every call's department argument matches the department stored on the
rows of the timetable it names, starting from a synced index over a store
whose rows occupy pairwise distinct cells, validate_global_state returns ok
and every is_global_slot row has exactly one index entry, mapping its cell
to its department. -/
theorem claim4_amended (st0 : CoordState) (ops : List CoordOp)
    (hg : st0.g = gSpec st0.storage)
    (hnd : (st0.storage.map cellOf).Nodup)
    (hops : ∀ op ∈ ops, deptConsistent st0.storage op = true) :
    validateGlobalConsistency (applyOps st0 ops) = true ∧
    ∀ r ∈ (applyOps st0 ops).storage, r.isGlobalSlot = true →
      gEntries (applyOps st0 ops).g (cellOf r) = [(cellOf r, r.department)] := by
  have hs0 : Synced st0 := fun c => by rw [hg]
  have hsync := synced_applyOps ops st0 hs0 hnd hops
  have hndf : ((applyOps st0 ops).storage.map cellOf).Nodup := by
    rw [cells_applyOps]
    exact hnd
  exact ⟨validate_of_synced _ hsync hndf, entries_of_synced _ hsync hndf⟩

/-- C4 witness: the amended claim on the one-row store, reserving the row
for its own department. -/
theorem claim4_witness :
    (deptAState.g = gSpec deptAState.storage ∧
      (deptAState.storage.map cellOf).Nodup ∧
      ∀ op ∈ [CoordOp.reserve "A" 1 [1]],
        deptConsistent deptAState.storage op = true) ∧
    (validateGlobalConsistency (applyOps deptAState [CoordOp.reserve "A" 1 [1]])
        = true ∧
      ∀ r ∈ (applyOps deptAState [CoordOp.reserve "A" 1 [1]]).storage,
        r.isGlobalSlot = true →
          gEntries (applyOps deptAState [CoordOp.reserve "A" 1 [1]]).g (cellOf r)
            = [(cellOf r, r.department)]) :=
  ⟨⟨rfl, by decide, by decide⟩,
    claim4_amended deptAState [CoordOp.reserve "A" 1 [1]] rfl (by decide) (by decide)⟩

/-- C10: reserve_global_slots returns True unconditionally - also when
slot_ids matches no row - keeps the store's length, turns is_global_slot on
exactly on the rows of the named timetable whose id is in slot_ids, and
leaves every other row, and every other field of the modified rows,
unchanged. -/
theorem claim10_reserve_frame (st : CoordState) (department : String)
    (ttId : Nat) (ids : List Nat) :
    (reserveGlobalSlots st department ttId ids).2 = true ∧
    (reserveGlobalSlots st department ttId ids).1.storage.length
        = st.storage.length ∧
    ∀ (i : Nat) (r : SlotRow), st.storage[i]? = some r →
      (reserveGlobalSlots st department ttId ids).1.storage[i]? =
        some (if r.deptTimetableId = ttId ∧ r.id ∈ ids then
          { r with isGlobalSlot := true } else r) := by
  refine ⟨rfl, ?_, ?_⟩
  · show (st.storage.map (reserveToggle ttId ids)).length = st.storage.length
    exact List.length_map _ _
  · intro i r hi
    show (st.storage.map (reserveToggle ttId ids))[i]? = _
    rw [List.getElem?_map, hi]
    show some (reserveToggle ttId ids r) = _
    unfold reserveToggle reserveTargeted
    by_cases hmatch : r.deptTimetableId = ttId ∧ r.id ∈ ids
    · have hb : (r.deptTimetableId == ttId && ids.contains r.id) = true := by
        rw [Bool.and_eq_true, beq_iff_eq]
        exact ⟨hmatch.1, List.elem_iff.mpr hmatch.2⟩
      rw [if_pos hb, if_pos hmatch]
    · have hb : ¬(r.deptTimetableId == ttId && ids.contains r.id) = true := by
        rw [Bool.and_eq_true, beq_iff_eq]
        intro hcon
        exact hmatch ⟨hcon.1, List.elem_iff.mp hcon.2⟩
      rw [if_neg hb, if_neg hmatch]

/-- C10 witness: the frame theorem on the one-row store, naming a slot id
that matches no row (the call still returns True and the row is untouched). -/
theorem claim10_witness :
    deptAState.storage[0]? = some deptARow ∧
    (reserveGlobalSlots deptAState "A" 1 [2]).2 = true ∧
    (reserveGlobalSlots deptAState "A" 1 [2]).1.storage[0]? =
      some (if deptARow.deptTimetableId = 1 ∧ deptARow.id ∈ [2] then
        { deptARow with isGlobalSlot := true } else deptARow) :=
  ⟨rfl, (claim10_reserve_frame deptAState "A" 1 [2]).1,
    (claim10_reserve_frame deptAState "A" 1 [2]).2.2 0 deptARow rfl⟩

end TTS
